import Mathlib

/-!
Verification of the roc audio profiler (moving-average throughput estimator).

The estimator is declared in `src/modules/roc_audio/profiler.h` and exercised by
`src/tests/roc_audio/test_profiler.cpp`; the translation unit `profiler.cpp` that
defines `Profiler::add_frame`, the constructor and `valid()` is not among the
sources, so those operations are modelled from the specification (§3, §4).
The timed-write decorator `ProfilingWriter` is translated from
`src/modules/roc_audio/profiling_writer.cpp`.

Speeds and averages are modelled as rationals (the C++ code uses `double`);
sample counts are naturals and elapsed times are integers (nanoseconds, the
unit of `core::nanoseconds_t`).
-/

namespace Roc

/-- Nanoseconds in one second (`core::Second`). -/
def second_ns : ℕ := 1000000000

/-- Modelled from the spec: §3 fixes the time span of one bucket at 10 ms
(the constant lives in the missing `profiler.cpp`). Value in nanoseconds. -/
def bucket_length_ns : ℕ := 10000000

/-- Modelled from the spec: the estimator state of §3 (the fields of class
`Profiler` whose maintenance code in `profiler.cpp` is absent from the sources).
`history` and the two weight fields are ghost instrumentation: `history` records
every finalized bucket value in order, `open_bucket_weight` accumulates the
weights contributed to the currently open bucket, and `weight_history` records
the total weight each finalized bucket had received at the moment it was
finalized.  They are written, never read, by the operations. -/
structure Profiler where
  bucket_capacity : ℕ
  ring_length : ℕ
  ring : List ℚ
  oldest_slot : ℕ
  open_bucket_filled : ℕ
  open_bucket_accumulator : ℚ
  completed_count : ℕ
  running_sum : ℚ
  moving_average : ℚ
  num_channels : ℕ
  valid : Bool
  history : List ℚ
  open_bucket_weight : ℚ
  weight_history : List ℚ
deriving DecidableEq, Repr

/-- Modelled from the spec: §4.1 Configuration & Validation (the `Profiler`
constructor in the missing `profiler.cpp`).  `bucket_capacity =
sample_rate × channel_count × bucket_duration`, `ring_length =
⌊window_duration / bucket_duration⌋`; the estimator is marked invalid when the
channel count is 0, the sample rate is 0, the window yields `ring_length < 1`,
or the ring allocation fails (`alloc_ok` stands for the success of that
allocation). -/
def mkProfiler (alloc_ok : Bool) (channels sample_rate : ℕ) (interval : ℤ) : Profiler :=
  { bucket_capacity := sample_rate * channels * bucket_length_ns / second_ns
    ring_length := (interval / (bucket_length_ns : ℤ)).toNat
    ring := List.replicate (interval / (bucket_length_ns : ℤ)).toNat 0
    oldest_slot := 0
    open_bucket_filled := 0
    open_bucket_accumulator := 0
    completed_count := 0
    running_sum := 0
    moving_average := 0
    num_channels := channels
    valid := channels != 0 && sample_rate != 0
               && 1 ≤ (interval / (bucket_length_ns : ℤ)).toNat && alloc_ok
    history := []
    open_bucket_weight := 0
    weight_history := [] }

/-- Modelled from the spec: §4.3 Aggregate Maintenance, `finalize_bucket(value)`
(part of the missing `profiler.cpp`).  While the ring is not full the value is
stored at the next slot and the cumulative moving average is produced; once
full, the oldest entry is evicted, the slot overwritten, and the sliding mean
produced.  Ghost: the value is appended to `history`. -/
def finalize_bucket (p : Profiler) (value : ℚ) : Profiler :=
  if p.completed_count < p.ring_length then
    { p with
      ring := p.ring.set p.completed_count value
      running_sum := p.running_sum + value
      completed_count := p.completed_count + 1
      moving_average := (p.running_sum + value) / ((p.completed_count + 1 : ℕ) : ℚ)
      history := p.history ++ [value] }
  else
    { p with
      ring := p.ring.set p.oldest_slot value
      running_sum := p.running_sum + value - p.ring.getD p.oldest_slot 0
      oldest_slot := (p.oldest_slot + 1) % p.ring_length
      moving_average := (p.running_sum + value - p.ring.getD p.oldest_slot 0) / ((p.ring_length : ℕ) : ℚ)
      history := p.history ++ [value] }

/-- Modelled from the spec: the distribution loop of §4.2 — the remaining
sample-units of a frame are placed into consecutive buckets, each receiving
`weight = n / bucket_capacity` of the frame's speed, and a bucket is finalized
exactly when it becomes full.  The guard on empty room only serves totality;
under the configuration invariant `bucket_capacity > 0` the open bucket always
has room.  Ghost: the contributed weight is tracked and recorded at
finalization. -/
def distribute (p : Profiler) (speed : ℚ) (remaining : ℕ) : Profiler :=
  if h1 : remaining = 0 then p
  else if h2 : p.bucket_capacity - p.open_bucket_filled = 0 then p
  else if h3 : p.open_bucket_filled + min (p.bucket_capacity - p.open_bucket_filled) remaining
      = p.bucket_capacity then
    distribute
      (finalize_bucket
        { p with
          open_bucket_filled := 0
          open_bucket_accumulator := 0
          open_bucket_weight := 0
          weight_history := p.weight_history ++
            [p.open_bucket_weight +
              ((min (p.bucket_capacity - p.open_bucket_filled) remaining : ℕ) : ℚ)
                / ((p.bucket_capacity : ℕ) : ℚ)] }
        (p.open_bucket_accumulator +
          ((min (p.bucket_capacity - p.open_bucket_filled) remaining : ℕ) : ℚ)
            / ((p.bucket_capacity : ℕ) : ℚ) * speed))
      speed (remaining - min (p.bucket_capacity - p.open_bucket_filled) remaining)
  else
    distribute
      { p with
        open_bucket_filled :=
          p.open_bucket_filled + min (p.bucket_capacity - p.open_bucket_filled) remaining
        open_bucket_accumulator :=
          p.open_bucket_accumulator +
            ((min (p.bucket_capacity - p.open_bucket_filled) remaining : ℕ) : ℚ)
              / ((p.bucket_capacity : ℕ) : ℚ) * speed
        open_bucket_weight :=
          p.open_bucket_weight +
            ((min (p.bucket_capacity - p.open_bucket_filled) remaining : ℕ) : ℚ)
              / ((p.bucket_capacity : ℕ) : ℚ) }
      speed (remaining - min (p.bucket_capacity - p.open_bucket_filled) remaining)
termination_by remaining
decreasing_by
  all_goals omega

/-- Modelled from the spec: the instantaneous speed of a frame, §4.2:
`speed = frame_size × TimeUnitPerSecond / elapsed_time / channel_count`
(also the `frame_speeds` computation of the reference test). -/
def frame_speed (channels : ℕ) (frame_size : ℕ) (elapsed : ℤ) : ℚ :=
  (frame_size : ℚ) * (second_ns : ℚ) / (elapsed : ℚ) / (channels : ℚ)

/-- Modelled from the spec: `Profiler::add_frame(frame_size, elapsed)`
(declared in `profiler.h`, body in the missing `profiler.cpp`): a frame with
non-positive elapsed time is skipped, otherwise its sample-units are
distributed over the buckets at the frame's instantaneous speed. -/
def add_frame (p : Profiler) (frame_size : ℕ) (elapsed : ℤ) : Profiler :=
  if elapsed ≤ 0 then p
  else distribute p (frame_speed p.num_channels frame_size elapsed) frame_size

/-- `Profiler::get_moving_avg` from `profiler.h`: returns the cached moving
average; the (non-const) method touches no state, which the model renders by
returning the state unchanged alongside the value. -/
def get_moving_avg (p : Profiler) : ℚ × Profiler :=
  (p.moving_average, p)

/-- Fold a sequence of finalized bucket values through the aggregate
maintenance step (§4.3). -/
def finalize_list (p : Profiler) (vs : List ℚ) : Profiler :=
  vs.foldl finalize_bucket p

/-- Fold a sequence of `(frame_size, elapsed)` frames through `add_frame`. -/
def add_frames (p : Profiler) (fs : List (ℕ × ℤ)) : Profiler :=
  fs.foldl (fun q f => add_frame q f.1 f.2) p

/-- One event of the timed-write decorator: either the forward of a frame to
the wrapped writer, or the hand-off of a measured frame to the profiler. -/
inductive WriteEvent
  | inner_write (frame_size : ℕ)
  | profile_frame (frame_size : ℕ) (elapsed : ℤ)
deriving DecidableEq, Repr

/-- `ProfilingWriter` from `profiling_writer.cpp`: owns the embedded profiler
(the wrapped `IWriter` is external and appears only through the event trace). -/
structure ProfilingWriter where
  profiler : Profiler
deriving DecidableEq, Repr

/-- The `ProfilingWriter` constructor from `profiling_writer.cpp`: builds the
embedded profiler from the supplied configuration, with no validity check. -/
def ProfilingWriter.create (alloc_ok : Bool) (channels sample_rate : ℕ)
    (interval : ℤ) : ProfilingWriter :=
  ⟨mkProfiler alloc_ok channels sample_rate interval⟩

/-- `ProfilingWriter::write` from `profiling_writer.cpp`: `write_` reads the
clock (`t_start`), forwards the frame to the wrapped writer and returns the
clock difference (`t_stop - t_start`); then `profiler_.add_frame(frame.size(),
elapsed)` is called.  The returned trace records, in order, the forward and the
`add_frame` invocation. -/
def ProfilingWriter.write (w : ProfilingWriter) (frame_size : ℕ)
    (t_start t_stop : ℤ) : ProfilingWriter × List WriteEvent :=
  (⟨add_frame w.profiler frame_size (t_stop - t_start)⟩,
   [WriteEvent.inner_write frame_size,
    WriteEvent.profile_frame frame_size (t_stop - t_start)])

/-! ### Unfolding lemmas for the distribution loop -/

theorem distribute_zero (p : Profiler) (speed : ℚ) : distribute p speed 0 = p := by
  rw [distribute]
  simp

theorem distribute_noroom (p : Profiler) (speed : ℚ) (remaining : ℕ)
    (h : p.bucket_capacity - p.open_bucket_filled = 0) :
    distribute p speed remaining = p := by
  rw [distribute]
  by_cases h1 : remaining = 0 <;> simp [h1, h]

theorem distribute_step_keep (p : Profiler) (speed : ℚ) (remaining : ℕ)
    (h1 : remaining ≠ 0) (h2 : p.bucket_capacity - p.open_bucket_filled ≠ 0)
    (h3 : p.open_bucket_filled + min (p.bucket_capacity - p.open_bucket_filled) remaining
      ≠ p.bucket_capacity) :
    distribute p speed remaining
      = distribute
          { p with
            open_bucket_filled :=
              p.open_bucket_filled + min (p.bucket_capacity - p.open_bucket_filled) remaining
            open_bucket_accumulator :=
              p.open_bucket_accumulator +
                ((min (p.bucket_capacity - p.open_bucket_filled) remaining : ℕ) : ℚ)
                  / ((p.bucket_capacity : ℕ) : ℚ) * speed
            open_bucket_weight :=
              p.open_bucket_weight +
                ((min (p.bucket_capacity - p.open_bucket_filled) remaining : ℕ) : ℚ)
                  / ((p.bucket_capacity : ℕ) : ℚ) }
          speed (remaining - min (p.bucket_capacity - p.open_bucket_filled) remaining) := by
  conv_lhs => rw [distribute]
  simp [h1, h2, h3]

theorem distribute_finalize (p : Profiler) (speed : ℚ) (remaining : ℕ)
    (h1 : remaining ≠ 0) (h2 : p.bucket_capacity - p.open_bucket_filled ≠ 0)
    (h3 : p.open_bucket_filled + min (p.bucket_capacity - p.open_bucket_filled) remaining
      = p.bucket_capacity) :
    distribute p speed remaining
      = distribute
          (finalize_bucket
            { p with
              open_bucket_filled := 0
              open_bucket_accumulator := 0
              open_bucket_weight := 0
              weight_history := p.weight_history ++
                [p.open_bucket_weight +
                  ((min (p.bucket_capacity - p.open_bucket_filled) remaining : ℕ) : ℚ)
                    / ((p.bucket_capacity : ℕ) : ℚ)] }
            (p.open_bucket_accumulator +
              ((min (p.bucket_capacity - p.open_bucket_filled) remaining : ℕ) : ℚ)
                / ((p.bucket_capacity : ℕ) : ℚ) * speed))
          speed (remaining - min (p.bucket_capacity - p.open_bucket_filled) remaining) := by
  conv_lhs => rw [distribute]
  simp [h1, h2, h3]

/-! ### Field-preservation lemmas for `finalize_bucket` -/

@[simp] theorem finalize_bucket_bucket_capacity (p : Profiler) (v : ℚ) :
    (finalize_bucket p v).bucket_capacity = p.bucket_capacity := by
  unfold finalize_bucket; split <;> rfl

@[simp] theorem finalize_bucket_ring_length (p : Profiler) (v : ℚ) :
    (finalize_bucket p v).ring_length = p.ring_length := by
  unfold finalize_bucket; split <;> rfl

@[simp] theorem finalize_bucket_num_channels (p : Profiler) (v : ℚ) :
    (finalize_bucket p v).num_channels = p.num_channels := by
  unfold finalize_bucket; split <;> rfl

@[simp] theorem finalize_bucket_open_filled (p : Profiler) (v : ℚ) :
    (finalize_bucket p v).open_bucket_filled = p.open_bucket_filled := by
  unfold finalize_bucket; split <;> rfl

@[simp] theorem finalize_bucket_open_accumulator (p : Profiler) (v : ℚ) :
    (finalize_bucket p v).open_bucket_accumulator = p.open_bucket_accumulator := by
  unfold finalize_bucket; split <;> rfl

@[simp] theorem finalize_bucket_open_weight (p : Profiler) (v : ℚ) :
    (finalize_bucket p v).open_bucket_weight = p.open_bucket_weight := by
  unfold finalize_bucket; split <;> rfl

@[simp] theorem finalize_bucket_weight_history (p : Profiler) (v : ℚ) :
    (finalize_bucket p v).weight_history = p.weight_history := by
  unfold finalize_bucket; split <;> rfl

@[simp] theorem finalize_bucket_history (p : Profiler) (v : ℚ) :
    (finalize_bucket p v).history = p.history ++ [v] := by
  unfold finalize_bucket; split <;> rfl

@[simp] theorem finalize_bucket_ring_len (p : Profiler) (v : ℚ) :
    (finalize_bucket p v).ring.length = p.ring.length := by
  unfold finalize_bucket; split <;> simp

/-! ### C3, C7: skipped frames -/

/-- C3: for every estimator state and every frame size, a call to `add_frame`
with non-positive elapsed time (zero or negative) leaves the entire estimator
state unchanged — no bucket update, moving average unchanged, all ring state
unchanged — and no division by elapsed time is performed (in the rational
model the skipped frame is the reason no non-finite average can arise). -/
theorem add_frame_nonpos_elapsed_noop (p : Profiler) (frame_size : ℕ) (elapsed : ℤ)
    (h : elapsed ≤ 0) : add_frame p frame_size elapsed = p := by
  simp [add_frame, h]

/-- Witness for C3 at a concrete estimator, frame size 10 and elapsed −5 ns. -/
theorem add_frame_nonpos_elapsed_noop_witness :
    add_frame (mkProfiler true 1 5000 (50 * 1000000)) 10 (-5)
      = mkProfiler true 1 5000 (50 * 1000000) :=
  add_frame_nonpos_elapsed_noop (mkProfiler true 1 5000 (50 * 1000000)) 10 (-5) (by decide)

/-- C7: for every estimator state and every elapsed time, a call to `add_frame`
with frame size 0 leaves every field of the estimator state unchanged. -/
theorem add_frame_zero_size_noop (p : Profiler) (elapsed : ℤ) :
    add_frame p 0 elapsed = p := by
  by_cases h : elapsed ≤ 0 <;> simp [add_frame, h, distribute_zero]

/-! ### C4: construction and validity -/

/-- C4: construction always yields an estimator (the model is a total
function), and `valid()` returns `false` exactly when the channel count is 0,
the sample rate is 0, the window duration yields `ring_length < 1`, or the
ring allocation failed; for all other configurations it returns `true`. -/
theorem valid_false_iff_degenerate (alloc_ok : Bool) (channels sample_rate : ℕ)
    (interval : ℤ) :
    (mkProfiler alloc_ok channels sample_rate interval).valid = false ↔
      (channels = 0 ∨ sample_rate = 0 ∨
        (mkProfiler alloc_ok channels sample_rate interval).ring_length < 1 ∨
        alloc_ok = false) := by
  cases alloc_ok <;> simp [mkProfiler] <;> omega

/-! ### C8: zero state and pure read -/

/-- C8: a freshly constructed valid estimator reports a moving average of
exactly 0 before any frame is added, and the read operation mutates no state,
so repeated reads without intervening `add_frame` calls return the same
value. -/
theorem fresh_average_zero_read_pure (alloc_ok : Bool) (channels sample_rate : ℕ)
    (interval : ℤ)
    (_hv : (mkProfiler alloc_ok channels sample_rate interval).valid = true) :
    (get_moving_avg (mkProfiler alloc_ok channels sample_rate interval)).1 = 0 ∧
      ∀ q : Profiler, (get_moving_avg q).2 = q ∧
        (get_moving_avg ((get_moving_avg q).2)).1 = (get_moving_avg q).1 :=
  ⟨rfl, fun _ => ⟨rfl, rfl⟩⟩

/-- Witness for C8 at the reference configuration (1 channel, 5000 Hz, 50 ms
window), which is valid. -/
theorem fresh_average_zero_read_pure_witness :
    (get_moving_avg (mkProfiler true 1 5000 (50 * 1000000))).1 = 0 ∧
      ∀ q : Profiler, (get_moving_avg q).2 = q ∧
        (get_moving_avg ((get_moving_avg q).2)).1 = (get_moving_avg q).1 :=
  fresh_average_zero_read_pure true 1 5000 (50 * 1000000) (by decide)

/-! ### C10: the timed-write decorator -/

/-- C10: every `ProfilingWriter::write` call first forwards the frame to the
wrapped writer exactly once and then calls `Profiler::add_frame` exactly once
with the frame's size and the measured elapsed time, unconditionally — no
validity check of the embedded profiler occurs, so a decorator built from a
degenerate configuration (zero channels) still invokes `add_frame` on an
invalid estimator on its first write. -/
theorem profiling_writer_forwards_then_profiles (w : ProfilingWriter)
    (frame_size : ℕ) (t_start t_stop : ℤ) :
    ((w.write frame_size t_start t_stop).2
        = [WriteEvent.inner_write frame_size,
           WriteEvent.profile_frame frame_size (t_stop - t_start)] ∧
      (w.write frame_size t_start t_stop).1.profiler
        = add_frame w.profiler frame_size (t_stop - t_start)) ∧
      ((ProfilingWriter.create true 0 5000 (50 * 1000000)).profiler.valid = false ∧
        WriteEvent.profile_frame 10 5
          ∈ ((ProfilingWriter.create true 0 5000 (50 * 1000000)).write 10 0 5).2) := by
  refine ⟨⟨rfl, rfl⟩, by decide, ?_⟩
  simp [ProfilingWriter.write]

/-! ### C5: weighted split of a bucket between two frames -/

/-- C5: starting from any estimator whose open bucket is fresh (nothing filled,
accumulator 0) and whose bucket capacity is `2 * c` with `c > 0`, two
consecutive frames that each contribute exactly half the bucket's capacity
finalize — at the second frame, and only then — a bucket whose value is
`0.5 × speed_a + 0.5 × speed_b`, for all positive elapsed times of the two
frames. -/
theorem half_bucket_weighted_split (p : Profiler) (c : ℕ) (ta tb : ℤ)
    (hc : 0 < c) (hcap : p.bucket_capacity = 2 * c)
    (hfill : p.open_bucket_filled = 0) (hacc : p.open_bucket_accumulator = 0)
    (hta : 0 < ta) (htb : 0 < tb) :
    (add_frame p c ta).history = p.history ∧
      (add_frame (add_frame p c ta) c tb).history
        = p.history ++ [(1 / 2) * frame_speed p.num_channels c ta
            + (1 / 2) * frame_speed p.num_channels c tb] := by
  have hta' : ¬ ta ≤ 0 := not_le.mpr hta
  have htb' : ¬ tb ≤ 0 := not_le.mpr htb
  have hroom : p.bucket_capacity - p.open_bucket_filled = 2 * c := by
    rw [hcap, hfill]; omega
  have hmin : min (p.bucket_capacity - p.open_bucket_filled) c = c := by
    rw [hroom]; omega
  have step1 : add_frame p c ta
      = { p with
          open_bucket_filled := c
          open_bucket_accumulator := (c : ℚ) / ((2 * c : ℕ) : ℚ) * frame_speed p.num_channels c ta
          open_bucket_weight := p.open_bucket_weight + (c : ℚ) / ((2 * c : ℕ) : ℚ) } := by
    rw [add_frame, if_neg hta',
      distribute_step_keep p _ c (by omega) (by omega) (by rw [hmin, hfill, hcap]; omega)]
    rw [hmin, Nat.sub_self, distribute_zero]
    rw [hfill, hacc, hcap]
    norm_num
  refine ⟨by rw [step1], ?_⟩
  rw [step1]
  set q : Profiler :=
    { p with
      open_bucket_filled := c
      open_bucket_accumulator := (c : ℚ) / ((2 * c : ℕ) : ℚ) * frame_speed p.num_channels c ta
      open_bucket_weight := p.open_bucket_weight + (c : ℚ) / ((2 * c : ℕ) : ℚ) } with hq
  have hqcap : q.bucket_capacity = 2 * c := by rw [hq]; exact hcap
  have hqfill : q.open_bucket_filled = c := by rw [hq]
  have hroom2 : q.bucket_capacity - q.open_bucket_filled = c := by
    rw [hqcap, hqfill]; omega
  have hmin2 : min (q.bucket_capacity - q.open_bucket_filled) c = c := by
    rw [hroom2]; omega
  rw [add_frame, if_neg htb',
    distribute_finalize q _ c (by omega) (by omega) (by rw [hmin2, hqfill, hqcap]; omega)]
  rw [hmin2, Nat.sub_self, distribute_zero, finalize_bucket_history]
  have hc' : (c : ℚ) ≠ 0 := Nat.cast_ne_zero.mpr (by omega)
  have hcast : ((2 * c : ℕ) : ℚ) = 2 * (c : ℚ) := by push_cast; ring
  have hhalf : (c : ℚ) / ((2 * c : ℕ) : ℚ) = 1 / 2 := by
    rw [hcast, mul_comm (2 : ℚ) (c : ℚ), ← div_div, div_self hc']
  simp only [hq, hcap, hhalf]

/-- Witness for C5: capacity 50 = 2 × 25, two frames of 25 sample-units with
elapsed times 25 s and 12.5 s. -/
theorem half_bucket_weighted_split_witness :
    (add_frame (mkProfiler true 1 5000 (50 * 1000000)) 25 25000000000).history
        = (mkProfiler true 1 5000 (50 * 1000000)).history ∧
      (add_frame (add_frame (mkProfiler true 1 5000 (50 * 1000000)) 25 25000000000)
            25 12500000000).history
        = (mkProfiler true 1 5000 (50 * 1000000)).history ++
            [(1 / 2) * frame_speed (mkProfiler true 1 5000 (50 * 1000000)).num_channels 25 25000000000
              + (1 / 2) * frame_speed (mkProfiler true 1 5000 (50 * 1000000)).num_channels 25 12500000000] :=
  half_bucket_weighted_split (mkProfiler true 1 5000 (50 * 1000000)) 25 25000000000 12500000000
    (by decide) (by decide) (by decide) rfl (by decide) (by decide)

/-! ### C6: every finalized bucket received total weight exactly 1 -/

/-- Ghost invariant: the weight contributed so far to the open bucket, scaled
by the bucket capacity, equals the number of sample-units placed in it, and
every already-finalized bucket received total weight exactly 1. -/
def WeightInv (p : Profiler) : Prop :=
  p.open_bucket_weight * ((p.bucket_capacity : ℕ) : ℚ) = ((p.open_bucket_filled : ℕ) : ℚ) ∧
    ∀ w ∈ p.weight_history, w = 1

theorem distribute_weight_inv (speed : ℚ) :
    ∀ remaining : ℕ, ∀ p : Profiler, WeightInv p → WeightInv (distribute p speed remaining) := by
  intro remaining
  induction remaining using Nat.strong_induction_on with
  | _ remaining ih =>
    intro p hp
    rw [distribute]
    split
    · exact hp
    · split
      · exact hp
      · have hcapQ : ((p.bucket_capacity : ℕ) : ℚ) ≠ 0 := by
          rename_i h1 h2
          exact Nat.cast_ne_zero.mpr (by omega)
        split
        · rename_i h1 h2 h3
          refine ih _ (by omega) _ ⟨by simp, ?_⟩
          simp only [finalize_bucket_weight_history]
          intro w hw
          rcases List.mem_append.mp hw with hw' | hw'
          · exact hp.2 w hw'
          · have hw1 : w = p.open_bucket_weight +
                ((min (p.bucket_capacity - p.open_bucket_filled) remaining : ℕ) : ℚ)
                  / ((p.bucket_capacity : ℕ) : ℚ) := by
              simpa using hw'
            rw [hw1]
            field_simp
            rw [hp.1]
            exact_mod_cast h3
        · rename_i h1 h2 h3
          refine ih _ (by omega) _ ⟨?_, hp.2⟩
          simp only
          rw [add_mul, hp.1, div_mul_cancel₀ _ hcapQ]
          push_cast
          ring

theorem add_frame_weight_inv (p : Profiler) (frame_size : ℕ) (elapsed : ℤ)
    (hp : WeightInv p) : WeightInv (add_frame p frame_size elapsed) := by
  by_cases h : elapsed ≤ 0
  · rw [add_frame, if_pos h]; exact hp
  · rw [add_frame, if_neg h]; exact distribute_weight_inv _ _ _ hp

theorem add_frames_weight_inv (fs : List (ℕ × ℤ)) :
    ∀ p : Profiler, WeightInv p → WeightInv (add_frames p fs) := by
  induction fs with
  | nil => intro p hp; exact hp
  | cons f t ihl =>
    intro p hp
    have : add_frames p (f :: t) = add_frames (add_frame p f.1 f.2) t := by
      simp [add_frames]
    rw [this]
    exact ihl _ (add_frame_weight_inv p f.1 f.2 hp)

/-- C6: starting from a freshly constructed estimator, after any sequence of
`add_frame` calls with positive elapsed times, every bucket that got finalized
had received weight contributions (each `n / bucket_capacity` for the `n`
sample-units a frame segment placed in it) summing to exactly 1 at the moment
it was finalized, regardless of how many frames contributed partial fills. -/
theorem finalized_bucket_weights_sum_to_one (alloc_ok : Bool) (channels sample_rate : ℕ)
    (interval : ℤ) (fs : List (ℕ × ℤ)) (_hpos : ∀ f ∈ fs, (0 : ℤ) < f.2) :
    ∀ w ∈ (add_frames (mkProfiler alloc_ok channels sample_rate interval) fs).weight_history,
      w = 1 := by
  have h0 : WeightInv (mkProfiler alloc_ok channels sample_rate interval) := by
    constructor
    · simp [mkProfiler]
    · intro w hw
      simp [mkProfiler] at hw
  exact (add_frames_weight_inv fs _ h0).2

/-! ### C2: cumulative-mean phase, sliding-mean phase, and their transition -/

theorem getD_set_same (l : List ℚ) (i : ℕ) (a d : ℚ) (h : i < l.length) :
    (l.set i a).getD i d = a := by
  simp [List.getD, List.getElem?_set_self h]

theorem getD_set_other (l : List ℚ) (i j : ℕ) (a d : ℚ) (h : i ≠ j) :
    (l.set i a).getD j d = l.getD j d := by
  simp [List.getD, List.getElem?_set_ne h]

theorem getD_append_lt (l l' : List ℚ) (n : ℕ) (d : ℚ) (h : n < l.length) :
    (l ++ l').getD n d = l.getD n d := by
  simp [List.getD, List.getElem?_append_left h]

theorem getD_append_len (l : List ℚ) (v d : ℚ) :
    (l ++ [v]).getD l.length d = v := by
  simp [List.getD, List.getElem?_append_right (le_refl l.length)]

theorem mod_succ_mod (k L : ℕ) : (k % L + 1) % L = (k + 1) % L := by
  conv_lhs => rw [Nat.add_mod, Nat.mod_mod_of_dvd k dvd_rfl]
  rw [← Nat.add_mod]

theorem mod_ne_of_between (m k L : ℕ) (hm : m < k) (hkL : k < m + L) :
    m % L ≠ k % L := by
  intro h
  have hdvd : L ∣ k - m := (Nat.modEq_iff_dvd' (le_of_lt hm)).mp h
  have := Nat.le_of_dvd (by omega) hdvd
  omega

theorem finalize_bucket_fill (p : Profiler) (v : ℚ)
    (h : p.completed_count < p.ring_length) :
    (finalize_bucket p v).completed_count = p.completed_count + 1 ∧
      (finalize_bucket p v).oldest_slot = p.oldest_slot ∧
      (finalize_bucket p v).ring = p.ring.set p.completed_count v ∧
      (finalize_bucket p v).running_sum = p.running_sum + v ∧
      (finalize_bucket p v).moving_average
        = (p.running_sum + v) / ((p.completed_count + 1 : ℕ) : ℚ) := by
  rw [finalize_bucket, if_pos h]
  exact ⟨rfl, rfl, rfl, rfl, rfl⟩

theorem finalize_bucket_evict (p : Profiler) (v : ℚ)
    (h : ¬ p.completed_count < p.ring_length) :
    (finalize_bucket p v).completed_count = p.completed_count ∧
      (finalize_bucket p v).oldest_slot = (p.oldest_slot + 1) % p.ring_length ∧
      (finalize_bucket p v).ring = p.ring.set p.oldest_slot v ∧
      (finalize_bucket p v).running_sum = p.running_sum + v - p.ring.getD p.oldest_slot 0 ∧
      (finalize_bucket p v).moving_average
        = (p.running_sum + v - p.ring.getD p.oldest_slot 0) / ((p.ring_length : ℕ) : ℚ) := by
  rw [finalize_bucket, if_neg h]
  exact ⟨rfl, rfl, rfl, rfl, rfl⟩

/-- The full inductive invariant of aggregate maintenance: after finalizing the
value sequence `vs` from a fresh estimator, the completed count saturates at
the ring length, the oldest-slot pointer wraps, the ring holds the last
`min vs.length L` values at their indices modulo `L`, the running sum is the
sum of the last `min vs.length L` values, and the moving average is their
mean. -/
theorem finalize_list_invariant (L : ℕ) (hL : 1 ≤ L) (p0 : Profiler)
    (hrl : p0.ring_length = L) (hrg : p0.ring.length = L)
    (hcc : p0.completed_count = 0) (hos : p0.oldest_slot = 0)
    (hrs : p0.running_sum = 0) (hma : p0.moving_average = 0) :
    ∀ vs : List ℚ,
      (finalize_list p0 vs).ring_length = L ∧
      (finalize_list p0 vs).ring.length = L ∧
      (finalize_list p0 vs).completed_count = min vs.length L ∧
      (finalize_list p0 vs).oldest_slot
        = (if vs.length < L then 0 else vs.length % L) ∧
      (∀ m : ℕ, m < vs.length → vs.length ≤ m + L →
        (finalize_list p0 vs).ring.getD (m % L) 0 = vs.getD m 0) ∧
      (finalize_list p0 vs).running_sum = (vs.drop (vs.length - L)).sum ∧
      (finalize_list p0 vs).moving_average
        = (if vs.length = 0 then 0
            else (vs.drop (vs.length - L)).sum / ((min vs.length L : ℕ) : ℚ)) := by
  intro vs
  induction vs using List.reverseRecOn with
  | nil =>
    refine ⟨hrl, hrg, ?_, ?_, ?_, ?_, ?_⟩
    · simp [finalize_list, hcc]
    · simp [finalize_list, hos, show 0 < L by omega]
    · intro m hm hml
      exact absurd hm (by simp)
    · simp [finalize_list, hrs]
    · simp [finalize_list, hma]
  | append_singleton vs v ih =>
    obtain ⟨ih1, ih2, ih3, ih4, ih5, ih6, ih7⟩ := ih
    have hstep : finalize_list p0 (vs ++ [v]) = finalize_bucket (finalize_list p0 vs) v := by
      simp [finalize_list]
    have hlen : (vs ++ [v]).length = vs.length + 1 := by simp
    rw [hstep]
    by_cases hk : vs.length < L
    · -- cumulative phase: the ring is not yet full
      have hcond : (finalize_list p0 vs).completed_count < (finalize_list p0 vs).ring_length := by
        rw [ih3, ih1]; omega
      obtain ⟨e1, e2, e3, e4, e5⟩ := finalize_bucket_fill (finalize_list p0 vs) v hcond
      refine ⟨by simp [ih1], ?_, ?_, ?_, ?_, ?_, ?_⟩
      · rw [e3, List.length_set]; exact ih2
      · rw [e1, ih3, hlen]; omega
      · rw [e2, ih4, if_pos hk, hlen]
        by_cases h2 : vs.length + 1 < L
        · rw [if_pos h2]
        · rw [if_neg h2, show vs.length + 1 = L by omega, Nat.mod_self]
      · intro m hm hmL
        rw [hlen] at hm hmL
        rw [e3, ih3, Nat.min_eq_left (le_of_lt hk)]
        by_cases hmk : m = vs.length
        · subst hmk
          rw [Nat.mod_eq_of_lt hk,
            getD_set_same _ _ _ _ (by rw [ih2]; exact hk), getD_append_len]
        · have hmlt : m < vs.length := by omega
          have hne : vs.length ≠ m % L := by
            rw [Nat.mod_eq_of_lt (by omega : m < L)]; omega
          rw [getD_set_other _ _ _ _ _ hne, getD_append_lt _ _ _ _ hmlt]
          exact ih5 m hmlt (by omega)
      · rw [e4, ih6, hlen,
          show vs.length - L = 0 by omega, show vs.length + 1 - L = 0 by omega]
        simp
      · rw [e5, ih6, ih3, hlen, if_neg (by omega),
          show vs.length - L = 0 by omega, show vs.length + 1 - L = 0 by omega,
          Nat.min_eq_left (le_of_lt hk), Nat.min_eq_left (by omega : vs.length + 1 ≤ L)]
        simp
    · -- sliding phase: the ring is full, the oldest bucket is evicted
      have hLk : L ≤ vs.length := not_lt.mp hk
      have hcond : ¬ (finalize_list p0 vs).completed_count < (finalize_list p0 vs).ring_length := by
        rw [ih3, ih1]; omega
      obtain ⟨e1, e2, e3, e4, e5⟩ := finalize_bucket_evict (finalize_list p0 vs) v hcond
      have hosP : (finalize_list p0 vs).oldest_slot = vs.length % L := by
        rw [ih4, if_neg hk]
      have hevict : (finalize_list p0 vs).ring.getD ((finalize_list p0 vs).oldest_slot) 0
          = vs.getD (vs.length - L) 0 := by
        rw [hosP, show vs.length % L = (vs.length - L) % L by
          conv_lhs => rw [show vs.length = (vs.length - L) + L by omega]
          rw [Nat.add_mod_right]]
        exact ih5 (vs.length - L) (by omega) (by omega)
      have hdrop : vs.drop (vs.length - L)
          = vs.getD (vs.length - L) 0 :: vs.drop (vs.length + 1 - L) := by
        rw [List.drop_eq_getElem_cons (show vs.length - L < vs.length by omega)]
        congr 1
        · exact (List.getD_eq_getElem vs 0 (by omega)).symm
        · congr 1
          omega
      have hdropapp : (vs ++ [v]).drop (vs.length + 1 - L)
          = vs.drop (vs.length + 1 - L) ++ [v] := by
        rw [List.drop_append_eq_append_drop,
          show vs.length + 1 - L - vs.length = 0 by omega, List.drop_zero]
      refine ⟨by simp [ih1], ?_, ?_, ?_, ?_, ?_, ?_⟩
      · rw [e3, List.length_set]; exact ih2
      · rw [e1, ih3, hlen]; omega
      · rw [e2, hosP, ih1, hlen, if_neg (by omega)]
        exact mod_succ_mod vs.length L
      · intro m hm hmL
        rw [hlen] at hm hmL
        rw [e3, hosP]
        by_cases hmk : m = vs.length
        · subst hmk
          rw [getD_set_same _ _ _ _ (by rw [ih2]; exact Nat.mod_lt _ (by omega)),
            getD_append_len]
        · have hmlt : m < vs.length := by omega
          have hne : vs.length % L ≠ m % L :=
            (mod_ne_of_between m vs.length L hmlt (by omega)).symm
          rw [getD_set_other _ _ _ _ _ hne, getD_append_lt _ _ _ _ hmlt]
          exact ih5 m hmlt (by omega)
      · rw [e4, ih6, hevict, hlen, hdropapp, hdrop]
        simp
        ring
      · rw [e5, ih6, hevict, ih1, hlen, if_neg (by omega),
          show min (vs.length + 1) L = L by omega, hdropapp, hdrop]
        simp
        ring

theorem mkProfiler_valid_ring_length_pos (alloc_ok : Bool) (channels sample_rate : ℕ)
    (interval : ℤ)
    (hv : (mkProfiler alloc_ok channels sample_rate interval).valid = true) :
    1 ≤ (mkProfiler alloc_ok channels sample_rate interval).ring_length := by
  simp [mkProfiler] at hv ⊢
  omega

theorem mkProfiler_ring_len (alloc_ok : Bool) (channels sample_rate : ℕ) (interval : ℤ) :
    (mkProfiler alloc_ok channels sample_rate interval).ring.length
      = (mkProfiler alloc_ok channels sample_rate interval).ring_length := by
  simp [mkProfiler]

/-- C2: for every valid estimator, while `completed_count < ring_length` the
reported moving average equals the cumulative mean `running_sum /
completed_count` of all buckets finalized so far (with `running_sum` the sum
of all of them), and from the moment `completed_count = ring_length` onward it
equals the sliding mean `running_sum / ring_length` of exactly the last
`ring_length` finalized bucket values; at the transition instant both formulas
give the same value. -/
theorem moving_average_two_phases (alloc_ok : Bool) (channels sample_rate : ℕ)
    (interval : ℤ) (p : Profiler) (L : ℕ)
    (hp : p = mkProfiler alloc_ok channels sample_rate interval)
    (hv : p.valid = true) (hLdef : L = p.ring_length) (vs : List ℚ) :
    (finalize_list p vs).completed_count = min vs.length L ∧
      (finalize_list p vs).running_sum = (vs.drop (vs.length - L)).sum ∧
      (0 < vs.length → vs.length < L →
        (finalize_list p vs).moving_average = vs.sum / ((vs.length : ℕ) : ℚ)) ∧
      (L ≤ vs.length →
        (finalize_list p vs).moving_average
          = (vs.drop (vs.length - L)).sum / ((L : ℕ) : ℚ)) ∧
      (vs.length = L →
        vs.sum / ((vs.length : ℕ) : ℚ) = (vs.drop (vs.length - L)).sum / ((L : ℕ) : ℚ)) ∧
      (vs.length = 0 → (finalize_list p vs).moving_average = 0) := by
  have hL1 : 1 ≤ L := by
    rw [hLdef, hp]
    exact mkProfiler_valid_ring_length_pos _ _ _ _ (hp ▸ hv)
  have hfacts := finalize_list_invariant L hL1 p
    (by rw [hLdef]) (by rw [hp, mkProfiler_ring_len, ← hp, hLdef])
    (by rw [hp]; rfl) (by rw [hp]; rfl) (by rw [hp]; rfl) (by rw [hp]; rfl) vs
  obtain ⟨_, _, i3, _, _, i6, i7⟩ := hfacts
  refine ⟨i3, i6, ?_, ?_, ?_, ?_⟩
  · intro h0 hlt
    rw [i7, if_neg (by omega), show vs.length - L = 0 by omega, List.drop_zero,
      Nat.min_eq_left (le_of_lt hlt)]
  · intro hge
    rw [i7, if_neg (by omega), Nat.min_eq_right hge]
  · intro heq
    rw [show vs.length - L = 0 by omega, List.drop_zero, heq]
  · intro h0
    rw [i7, if_pos h0]

/-- Witness for C2: the reference configuration (ring length 5) fed six
finalized bucket values, one past the phase transition. -/
theorem moving_average_two_phases_witness :
    (finalize_list (mkProfiler true 1 5000 (50 * 1000000)) [1, 2, 3, 4, 5, 6]).completed_count
        = min ([1, 2, 3, 4, 5, 6] : List ℚ).length 5 ∧
      (finalize_list (mkProfiler true 1 5000 (50 * 1000000)) [1, 2, 3, 4, 5, 6]).running_sum
        = (([1, 2, 3, 4, 5, 6] : List ℚ).drop (([1, 2, 3, 4, 5, 6] : List ℚ).length - 5)).sum ∧
      (0 < ([1, 2, 3, 4, 5, 6] : List ℚ).length → ([1, 2, 3, 4, 5, 6] : List ℚ).length < 5 →
        (finalize_list (mkProfiler true 1 5000 (50 * 1000000)) [1, 2, 3, 4, 5, 6]).moving_average
          = ([1, 2, 3, 4, 5, 6] : List ℚ).sum / ((([1, 2, 3, 4, 5, 6] : List ℚ).length : ℕ) : ℚ)) ∧
      (5 ≤ ([1, 2, 3, 4, 5, 6] : List ℚ).length →
        (finalize_list (mkProfiler true 1 5000 (50 * 1000000)) [1, 2, 3, 4, 5, 6]).moving_average
          = (([1, 2, 3, 4, 5, 6] : List ℚ).drop (([1, 2, 3, 4, 5, 6] : List ℚ).length - 5)).sum
              / ((5 : ℕ) : ℚ)) ∧
      (([1, 2, 3, 4, 5, 6] : List ℚ).length = 5 →
        ([1, 2, 3, 4, 5, 6] : List ℚ).sum / ((([1, 2, 3, 4, 5, 6] : List ℚ).length : ℕ) : ℚ)
          = (([1, 2, 3, 4, 5, 6] : List ℚ).drop (([1, 2, 3, 4, 5, 6] : List ℚ).length - 5)).sum
              / ((5 : ℕ) : ℚ)) ∧
      (([1, 2, 3, 4, 5, 6] : List ℚ).length = 0 →
        (finalize_list (mkProfiler true 1 5000 (50 * 1000000)) [1, 2, 3, 4, 5, 6]).moving_average
          = 0) :=
  moving_average_two_phases true 1 5000 (50 * 1000000)
    (mkProfiler true 1 5000 (50 * 1000000)) 5 rfl (by decide) (by decide)
    [1, 2, 3, 4, 5, 6]

/-! ### C1: the reference trace of `test_profiler.cpp` -/

/-- The reference test configuration: 1 channel, 5000 Hz, 50 ms window
(bucket capacity 50 sample-units, ring length 5). -/
def testProfiler : Profiler := mkProfiler true 1 5000 (50 * 1000000)

def u1 : Profiler := add_frame testProfiler 50 50000000000
def u2 : Profiler := add_frame u1 25 25000000000
def u3 : Profiler := add_frame u2 25 25000000000
def u4 : Profiler := add_frame u3 25 25000000000
def u5 : Profiler := add_frame u4 25 12500000000
def u6 : Profiler := add_frame u5 40 40000000000
def u7 : Profiler := add_frame u6 60 20000000000
def u8 : Profiler := add_frame u7 50 50000000000
def u9 : Profiler := add_frame u8 125 41666666666

theorem testProfiler_eq :
    testProfiler = ⟨50, 5, [0, 0, 0, 0, 0], 0, 0, 0, 0, 0, 0, 1, true, [], 0, []⟩ := by
  norm_num [testProfiler, mkProfiler, bucket_length_ns, second_ns, List.replicate,
    Profiler.mk.injEq]
  decide

theorem u1_eq :
    u1 = ⟨50, 5, [1, 0, 0, 0, 0], 0, 0, 0, 1, 1, 1, 1, true, [1], 0, [1]⟩ := by
  norm_num [u1, testProfiler_eq, add_frame, frame_speed, second_ns,
    distribute_finalize, distribute_step_keep, distribute_zero, finalize_bucket,
    List.getD, Profiler.mk.injEq]

theorem u2_eq :
    u2 = ⟨50, 5, [1, 0, 0, 0, 0], 0, 25, 1/2, 1, 1, 1, 1, true, [1], 1/2, [1]⟩ := by
  norm_num [u2, u1_eq, add_frame, frame_speed, second_ns,
    distribute_finalize, distribute_step_keep, distribute_zero, finalize_bucket,
    List.getD, Profiler.mk.injEq]

theorem u3_eq :
    u3 = ⟨50, 5, [1, 1, 0, 0, 0], 0, 0, 0, 2, 2, 1, 1, true, [1, 1], 0, [1, 1]⟩ := by
  norm_num [u3, u2_eq, add_frame, frame_speed, second_ns,
    distribute_finalize, distribute_step_keep, distribute_zero, finalize_bucket,
    List.getD, Profiler.mk.injEq]

theorem u4_eq :
    u4 = ⟨50, 5, [1, 1, 0, 0, 0], 0, 25, 1/2, 2, 2, 1, 1, true, [1, 1], 1/2, [1, 1]⟩ := by
  norm_num [u4, u3_eq, add_frame, frame_speed, second_ns,
    distribute_finalize, distribute_step_keep, distribute_zero, finalize_bucket,
    List.getD, Profiler.mk.injEq]

theorem u5_eq :
    u5 = ⟨50, 5, [1, 1, 3/2, 0, 0], 0, 0, 0, 3, 7/2, 7/6, 1, true,
      [1, 1, 3/2], 0, [1, 1, 1]⟩ := by
  norm_num [u5, u4_eq, add_frame, frame_speed, second_ns,
    distribute_finalize, distribute_step_keep, distribute_zero, finalize_bucket,
    List.getD, Profiler.mk.injEq]

theorem u6_eq :
    u6 = ⟨50, 5, [1, 1, 3/2, 0, 0], 0, 40, 4/5, 3, 7/2, 7/6, 1, true,
      [1, 1, 3/2], 4/5, [1, 1, 1]⟩ := by
  norm_num [u6, u5_eq, add_frame, frame_speed, second_ns,
    distribute_finalize, distribute_step_keep, distribute_zero, finalize_bucket,
    List.getD, Profiler.mk.injEq]

theorem u7_eq :
    u7 = ⟨50, 5, [1, 1, 3/2, 7/5, 3], 0, 0, 0, 5, 79/10, 79/50, 1, true,
      [1, 1, 3/2, 7/5, 3], 0, [1, 1, 1, 1, 1]⟩ := by
  norm_num [u7, u6_eq, add_frame, frame_speed, second_ns,
    distribute_finalize, distribute_step_keep, distribute_zero, finalize_bucket,
    List.getD, Profiler.mk.injEq]

theorem u8_eq :
    u8 = ⟨50, 5, [1, 1, 3/2, 7/5, 3], 1, 0, 0, 5, 79/10, 79/50, 1, true,
      [1, 1, 3/2, 7/5, 3, 1], 0, [1, 1, 1, 1, 1, 1]⟩ := by
  norm_num [u8, u7_eq, add_frame, frame_speed, second_ns,
    distribute_finalize, distribute_step_keep, distribute_zero, finalize_bucket,
    List.getD, Profiler.mk.injEq]

theorem u9_eq :
    u9 = ⟨50, 5,
      [1, 62500000000/20833333333, 62500000000/20833333333, 7/5, 3], 3, 25,
      31250000000/20833333333, 5, 1187499999991/104166666665,
      1187499999991/520833333325, 1, true,
      [1, 1, 3/2, 7/5, 3, 1, 62500000000/20833333333, 62500000000/20833333333],
      1/2, [1, 1, 1, 1, 1, 1, 1, 1]⟩ := by
  norm_num [u9, u8_eq, add_frame, frame_speed, second_ns,
    distribute_finalize, distribute_step_keep, distribute_zero, finalize_bucket,
    List.getD, Profiler.mk.injEq]

/-- Witness for C6: the reference configuration fed the first two frames of the
reference test, whose elapsed times are positive; the single finalized bucket
carries weight 1. -/
theorem finalized_bucket_weights_sum_to_one_witness :
    (add_frames (mkProfiler true 1 5000 (50 * 1000000))
        [(50, 50000000000), (25, 25000000000)]).weight_history.getD 0 0 = 1 :=
  finalized_bucket_weights_sum_to_one true 1 5000 (50 * 1000000)
    [(50, 50000000000), (25, 25000000000)] (by decide)
    ((add_frames (mkProfiler true 1 5000 (50 * 1000000))
        [(50, 50000000000), (25, 25000000000)]).weight_history.getD 0 0)
    (by
      have h : add_frames (mkProfiler true 1 5000 (50 * 1000000))
          [(50, 50000000000), (25, 25000000000)] = u2 := by
        simp [add_frames, u2, u1, testProfiler]
      rw [h, u2_eq]
      norm_num [List.getD])

/-- C1: with 1 channel, 5000 Hz, a 50 ms window (bucket capacity 50, ring
length 5), feeding the reference frame sequence of `test_profiler.cpp`
through `add_frame` yields after each call exactly the weighted-bucket
average of §4 (cumulative mean of the finalized buckets until 5 buckets are
complete, then the sliding mean of the last 5); the final oversized frame
finalizes two buckets — evicting exactly the two oldest live ones from the
running sum — and ends in a 5-bucket sliding mean. -/
theorem reference_trace_moving_averages :
    (testProfiler.bucket_capacity = 50 ∧ testProfiler.ring_length = 5 ∧
      testProfiler.valid = true) ∧
    (get_moving_avg u1).1 = frame_speed 1 50 50000000000 / 1 ∧
    (get_moving_avg u2).1 = frame_speed 1 50 50000000000 / 1 ∧
    (get_moving_avg u3).1
      = (frame_speed 1 50 50000000000
          + (1/2 * frame_speed 1 25 25000000000 + 1/2 * frame_speed 1 25 25000000000)) / 2 ∧
    (get_moving_avg u4).1
      = (frame_speed 1 50 50000000000
          + (1/2 * frame_speed 1 25 25000000000 + 1/2 * frame_speed 1 25 25000000000)) / 2 ∧
    (get_moving_avg u5).1
      = (frame_speed 1 50 50000000000
          + (1/2 * frame_speed 1 25 25000000000 + 1/2 * frame_speed 1 25 25000000000)
          + (1/2 * frame_speed 1 25 25000000000 + 1/2 * frame_speed 1 25 12500000000)) / 3 ∧
    (get_moving_avg u6).1
      = (frame_speed 1 50 50000000000
          + (1/2 * frame_speed 1 25 25000000000 + 1/2 * frame_speed 1 25 25000000000)
          + (1/2 * frame_speed 1 25 25000000000 + 1/2 * frame_speed 1 25 12500000000)) / 3 ∧
    (get_moving_avg u7).1
      = (frame_speed 1 50 50000000000
          + (1/2 * frame_speed 1 25 25000000000 + 1/2 * frame_speed 1 25 25000000000)
          + (1/2 * frame_speed 1 25 25000000000 + 1/2 * frame_speed 1 25 12500000000)
          + (4/5 * frame_speed 1 40 40000000000 + 1/5 * frame_speed 1 60 20000000000)
          + frame_speed 1 60 20000000000) / 5 ∧
    (get_moving_avg u8).1
      = ((1/2 * frame_speed 1 25 25000000000 + 1/2 * frame_speed 1 25 25000000000)
          + (1/2 * frame_speed 1 25 25000000000 + 1/2 * frame_speed 1 25 12500000000)
          + (4/5 * frame_speed 1 40 40000000000 + 1/5 * frame_speed 1 60 20000000000)
          + frame_speed 1 60 20000000000 + frame_speed 1 50 50000000000) / 5 ∧
    (get_moving_avg u9).1
      = ((4/5 * frame_speed 1 40 40000000000 + 1/5 * frame_speed 1 60 20000000000)
          + frame_speed 1 60 20000000000 + frame_speed 1 50 50000000000
          + frame_speed 1 125 41666666666 + frame_speed 1 125 41666666666) / 5 ∧
    u9.history
      = u8.history ++ [frame_speed 1 125 41666666666, frame_speed 1 125 41666666666] ∧
    u9.completed_count = 5 ∧
    u9.running_sum
      = u8.running_sum - u8.history.getD 1 0 - u8.history.getD 2 0
          + frame_speed 1 125 41666666666 + frame_speed 1 125 41666666666 ∧
    u9.moving_average = u9.running_sum / ((5 : ℕ) : ℚ) := by
  norm_num [get_moving_avg, testProfiler_eq, u1_eq, u2_eq, u3_eq, u4_eq, u5_eq,
    u6_eq, u7_eq, u8_eq, u9_eq, frame_speed, second_ns, List.getD]

end Roc
